import Mathlib

/-!
Driver of the "Ray Tracing in One Weekend" renderer (`src/InOneWeekend/main.cc`).

A shallow embedding of `usage` and `main`:

* the command-line scan (`main.cc` lines 33-58), over the argument vector as a
  list of strings, with `std::stoi` as a fallible function;
* the construction of the demonstration scene (lines 60-100), as explicit
  state passing over a source of random draws;
* the configuration of the camera and the diagnostic lines (lines 102-121),
  up to the call `cam.render(world)` on line 125.

Numbers of C++ type `double` are represented by rationals: every operation the
driver applies to them (`+`, `-`, `*`, `/`, `<`, and the comparison of a vector
length with a constant) is taken exactly, without rounding.  Values of C++ type
`int` are integers; `std::stoi` only yields values that fit 32 bits and the
driver does no arithmetic on them.
-/

set_option autoImplicit false

namespace RayTracing

/-! ## The parsing primitive `std::stoi` -/

/-- The two exceptions `std::stoi` can throw. -/
inductive stoi_error where
  | invalid_argument
  | out_of_range
  deriving DecidableEq, Repr

/-- The characters `std::isspace` accepts in the "C" locale: space, `\t`, `\n`,
`\v`, `\f`, `\r`. -/
def isspace (c : Char) : Bool :=
  c.toNat = 32 || (9 ≤ c.toNat && c.toNat ≤ 13)

/-- Value of a run of decimal digits, most significant first. -/
def digits_value (ds : List Char) : Nat :=
  ds.foldl (fun acc d => 10 * acc + (d.toNat - 48)) 0

/-- The call `std::stoi(str)` (base 10): leading white space is skipped, an
optional sign is read, then the longest run of decimal digits; what follows the
digits is ignored.  No digit at all throws `std::invalid_argument`, a value
outside the range of a 32-bit `int` throws `std::out_of_range`. -/
def stoi (str : String) : Except stoi_error Int :=
  let cs := str.toList.dropWhile isspace
  let signed : Bool × List Char :=
    match cs with
    | '-' :: r => (true, r)
    | '+' :: r => (false, r)
    | r => (false, r)
  let ds := signed.2.takeWhile Char.isDigit
  if ds = [] then .error .invalid_argument
  else
    let v : Int := if signed.1 then -(digits_value ds : Int) else (digits_value ds : Int)
    if -2147483648 ≤ v ∧ v ≤ 2147483647 then .ok v else .error .out_of_range

/-! ## `usage` and the argument scan of `main` -/

/-- The text `usage(program_name)` writes to `std::cerr` (lines 22-30). -/
def usage (program_name : String) : String :=
  "Usage: " ++ program_name ++ " [options]\n"
    ++ "Options:\n"
    ++ "  -w <width>      Image width\n"
    ++ "  -s <samples>    Samples per pixel\n"
    ++ "  -d <depth>      Max ray depth\n"
    ++ "  -t <threads>    Thread count (default: 0, use system default)\n"
    ++ "  -h              Show this help message\n"

/-- The four local variables of `main` that the flags set (lines 34-37). -/
structure Params where
  image_width : Int
  samples_per_pixel : Int
  max_depth : Int
  num_threads : Int
  deriving DecidableEq, Repr

/-- The default parameters (lines 34-37). -/
def default_params : Params :=
  { image_width := 400, samples_per_pixel := 100, max_depth := 50, num_threads := 0 }

/-- How the scan of the arguments ends. -/
inductive ScanResult where
  /-- The loop ran off the end of `argv`; `main` goes on to line 60. -/
  | done (p : Params)
  /-- A `return code;` inside the loop, with what was written to `std::cerr`. -/
  | returned (code : Int) (cerr : String)
  /-- The call `std::stoi` threw; `main` has no handler. -/
  | threw (e : stoi_error)
  deriving DecidableEq, Repr

/-- The text written to `std::cerr` by the last branch of the loop
(lines 54-55). -/
def unknown_option (program_name arg : String) : String :=
  "Unknown option: " ++ arg ++ "\n" ++ usage program_name

/-- The loop of lines 39-58 from position `i` on; the list is `argv[i..argc)`.
The second equation is the case `i + 1 = argc`, where every test
`i + 1 < argc` fails; the third is the case `i + 1 < argc`, with `v` the
argument `argv[++i]`. -/
def main_args_loop (program_name : String) : List String → Params → ScanResult
  | [], p => .done p
  | [arg], _ =>
    if arg = "-h" then .returned 0 (usage program_name)
    else .returned 1 (unknown_option program_name arg)
  | arg :: v :: rest, p =>
    if arg = "-h" then .returned 0 (usage program_name)
    else if arg = "-w" then
      match stoi v with
      | .ok n => main_args_loop program_name rest { p with image_width := n }
      | .error e => .threw e
    else if arg = "-s" then
      match stoi v with
      | .ok n => main_args_loop program_name rest { p with samples_per_pixel := n }
      | .error e => .threw e
    else if arg = "-d" then
      match stoi v with
      | .ok n => main_args_loop program_name rest { p with max_depth := n }
      | .error e => .threw e
    else if arg = "-t" then
      match stoi v with
      | .ok n => main_args_loop program_name rest { p with num_threads := n }
      | .error e => .threw e
    else .returned 1 (unknown_option program_name arg)

/-! ## Vectors, materials, spheres and the scene aggregate

The headers `vec3.h`, `material.h`, `sphere.h`, `hittable_list.h`, `camera.h`
and `rtweekend.h` are not among the sources; the driver only constructs values
of their types and calls the operations below. -/

/-- Modelled from the spec: `vec3.h` is not among the sources.  "A 3-tuple of
real numbers; points and colors are semantically distinct but structurally
identical to a free vector." -/
structure vec3 where
  x : ℚ
  y : ℚ
  z : ℚ
  deriving DecidableEq

namespace vec3

/-- Modelled from the spec: `operator-` of `vec3.h`, one of "the usual
operations" of the 3-component vector type. -/
def sub (u v : vec3) : vec3 := ⟨u.x - v.x, u.y - v.y, u.z - v.z⟩

/-- Modelled from the spec: the component-wise `operator*` of `vec3.h` on two
colors, one of "the usual operations" of the 3-component vector type. -/
def mul (u v : vec3) : vec3 := ⟨u.x * v.x, u.y * v.y, u.z * v.z⟩

/-- Modelled from the spec: `length_squared()` of `vec3.h`, the squared
Euclidean length. -/
def length_squared (v : vec3) : ℚ := v.x * v.x + v.y * v.y + v.z * v.z

/-- Modelled from the spec: the test `v.length() > r` with `length()` of
`vec3.h` the Euclidean length, the square root of `length_squared()`.  The
square root is not computed: a square root exceeds `r` exactly when `r` is
negative or the squared length exceeds `r * r` (see `length_gt_iff_sqrt`). -/
def length_gt (v : vec3) (r : ℚ) : Bool :=
  decide (r < 0) || decide (r * r < v.length_squared)

end vec3

/-- The three materials; `metal` carries the fuzz value handed to its
constructor, `dielectric` the refraction index. -/
inductive material where
  | lambertian (albedo : vec3)
  | metal (albedo : vec3) (fuzz : ℚ)
  | dielectric (refraction_index : ℚ)
  deriving DecidableEq

/-- Modelled from the spec: the constructor of `metal` in `material.h` is not
among the sources.  "fuzz ∈ [0,1], clamped": the fuzz the material keeps is the
given value clamped to the interval from 0 to 1. -/
def metal_fuzz (fuzz : ℚ) : ℚ := max 0 (min fuzz 1)

/-- A sphere as `main` constructs it: centre, radius, material. -/
structure sphere where
  center : vec3
  radius : ℚ
  mat : material
  deriving DecidableEq

/-- Modelled from the spec: `hittable_list.h` is not among the sources.  "An
insertion-ordered sequence of hittable surfaces". -/
abbrev hittable_list := List sphere

/-- Modelled from the spec: `hittable_list::add` appends a surface to the
"insertion-ordered sequence". -/
def hittable_list.add (world : hittable_list) (object : sphere) : hittable_list :=
  world ++ [object]

/-! ## The source of random draws -/

/-- The random functions `main` calls, as state passing over the state `σ` of
the generator.  `rtweekend.h` and `vec3.h`, which define them, are not among
the sources, so they are parameters of the embedding. -/
structure RandomSource (σ : Type) where
  /-- The call `random_double()`. -/
  random_double : σ → ℚ × σ
  /-- The call `random_double(min, max)`. -/
  random_double_range : ℚ → ℚ → σ → ℚ × σ
  /-- The call `color::random()`. -/
  color_random : σ → vec3 × σ
  /-- The call `color::random(min, max)`. -/
  color_random_range : ℚ → ℚ → σ → vec3 × σ

/-- The assumption "`random_double()` returns a value in [0,1)". -/
def RandomSource.UnitDraws {σ : Type} (R : RandomSource σ) : Prop :=
  ∀ s, 0 ≤ (R.random_double s).1 ∧ (R.random_double s).1 < 1

/-- The assumption "`random_double(lo, hi)` returns a value in [lo, hi)". -/
def RandomSource.RangeDraws {σ : Type} (R : RandomSource σ) : Prop :=
  ∀ lo hi s, lo < hi →
    lo ≤ (R.random_double_range lo hi s).1 ∧ (R.random_double_range lo hi s).1 < hi

/-- A source whose every draw is the lower end of its range. -/
def zeroSource : RandomSource Unit where
  random_double := fun s => (0, s)
  random_double_range := fun lo _ s => (lo, s)
  color_random := fun s => (⟨0, 0, 0⟩, s)
  color_random_range := fun lo _ s => (⟨lo, lo, lo⟩, s)

/-- A source that steps through the tenths 0, 0.1, ..., 0.9 and rescales them
to the requested range; its state counts the draws. -/
def cycleSource : RandomSource Nat where
  random_double := fun n => (((n % 10 : Nat) : ℚ) / 10, n + 1)
  random_double_range := fun lo hi n => (lo + (hi - lo) * (((n % 10 : Nat) : ℚ) / 10), n + 1)
  color_random := fun n =>
    (⟨((n % 10 : Nat) : ℚ) / 10, (((n + 1) % 10 : Nat) : ℚ) / 10,
      (((n + 2) % 10 : Nat) : ℚ) / 10⟩, n + 3)
  color_random_range := fun lo hi n =>
    (⟨lo + (hi - lo) * (((n % 10 : Nat) : ℚ) / 10),
      lo + (hi - lo) * ((((n + 1) % 10 : Nat) : ℚ) / 10),
      lo + (hi - lo) * ((((n + 2) % 10 : Nat) : ℚ) / 10)⟩, n + 3)

/-! ## The scene of `main` (lines 60-100) -/

/-- The values `lo, lo + 1, ..., hi - 1` of the loop variable of
`for (int a = lo; a < hi; a++)`. -/
def loop_values (lo hi : Int) : List Int :=
  (List.range (hi - lo).toNat).map (fun k => lo + (k : Int))

/-- The ground sphere (lines 62-63). -/
def ground_sphere : sphere :=
  ⟨⟨0, -1000, 0⟩, 1000, .lambertian ⟨1/2, 1/2, 1/2⟩⟩

/-- The large glass sphere (lines 93-94). -/
def glass_sphere : sphere := ⟨⟨0, 1, 0⟩, 1, .dielectric (3/2)⟩

/-- The large diffuse sphere (lines 96-97). -/
def diffuse_sphere : sphere := ⟨⟨-4, 1, 0⟩, 1, .lambertian ⟨4/10, 2/10, 1/10⟩⟩

/-- The large metal sphere (lines 99-100). -/
def metal_sphere : sphere := ⟨⟨4, 1, 0⟩, 1, .metal ⟨7/10, 6/10, 5/10⟩ 0⟩

/-- The body of the inner loop (lines 67-89) for the cell `(a, b)`: from the
state of the generator and the world so far to the state and world after.  The
draws are taken in the order in which the calls are written (C++ leaves the
order of the two draws inside the constructor call of `center`, and of the two
calls `color::random()`, to the compiler; no statement below depends on it). -/
def main_grid_cell {σ : Type} (R : RandomSource σ) (a b : Int)
    (st : σ × hittable_list) : σ × hittable_list :=
  let d0 := R.random_double st.1
  let choose_mat := d0.1
  let d1 := R.random_double d0.2
  let d2 := R.random_double d1.2
  let center : vec3 := ⟨(a : ℚ) + 9/10 * d1.1, 2/10, (b : ℚ) + 9/10 * d2.1⟩
  if (center.sub ⟨4, 2/10, 0⟩).length_gt (9/10) then
    if choose_mat < 8/10 then
      let c1 := R.color_random d2.2
      let c2 := R.color_random c1.2
      let albedo := c1.1.mul c2.1
      (c2.2, st.2.add ⟨center, 2/10, .lambertian albedo⟩)
    else if choose_mat < 95/100 then
      let c := R.color_random_range (5/10) 1 d2.2
      let f := R.random_double_range 0 (5/10) c.2
      (f.2, st.2.add ⟨center, 2/10, .metal c.1 f.1⟩)
    else
      (d2.2, st.2.add ⟨center, 2/10, .dielectric (15/10)⟩)
  else (d2.2, st.2)

/-- The inner loop `for (int b = -11; b < 11; b++)` (lines 66-90). -/
def main_grid_row {σ : Type} (R : RandomSource σ) (a : Int)
    (st : σ × hittable_list) : σ × hittable_list :=
  (loop_values (-11) 11).foldl (fun st b => main_grid_cell R a b st) st

/-- The outer loop `for (int a = -11; a < 11; a++)` (lines 65-91). -/
def main_grid {σ : Type} (R : RandomSource σ)
    (st : σ × hittable_list) : σ × hittable_list :=
  (loop_values (-11) 11).foldl (fun st a => main_grid_row R a st) st

/-- The scene aggregate `world` when `main` reaches line 102: the ground
sphere, the spheres of the grid loop, then the three large spheres. -/
def main_world {σ : Type} (R : RandomSource σ) (s : σ) : hittable_list :=
  let world : hittable_list := hittable_list.add [] ground_sphere
  let st := main_grid R (s, world)
  ((st.2.add glass_sphere).add diffuse_sphere).add metal_sphere

/-! ## The camera, the diagnostics and `main` -/

/-- The public fields of `camera` that `main` assigns (lines 104-116). -/
structure camera where
  aspect_ratio : ℚ
  image_width : Int
  samples_per_pixel : Int
  max_depth : Int
  num_threads : Int
  vfov : ℚ
  lookfrom : vec3
  lookat : vec3
  vup : vec3
  defocus_angle : ℚ
  focus_dist : ℚ
  deriving DecidableEq

/-- The camera after lines 102-116. -/
def main_camera (p : Params) : camera :=
  { aspect_ratio := 16 / 9
    image_width := p.image_width
    samples_per_pixel := p.samples_per_pixel
    max_depth := p.max_depth
    num_threads := p.num_threads
    vfov := 20
    lookfrom := ⟨13, 2, 3⟩
    lookat := ⟨0, 0, 0⟩
    vup := ⟨0, 1, 0⟩
    defocus_angle := 6 / 10
    focus_dist := 10 }

/-- The conversion `int(q)` of a `double` to `int`: truncation toward zero. -/
def to_int (q : ℚ) : Int := q.num.tdiv (q.den : Int)

/-- The height `int(image_width / cam.aspect_ratio)` printed on line 119. -/
def reported_height (cam : camera) (image_width : Int) : Int :=
  to_int ((image_width : ℚ) / cam.aspect_ratio)

/-- The text written to `std::clog` on lines 118-121, before the render. -/
def main_clog (p : Params) (cam : camera) : String :=
  "Starting render...\n"
    ++ "Image size: " ++ toString p.image_width ++ "x"
    ++ toString (reported_height cam p.image_width) ++ "\n"
    ++ "Samples per pixel: " ++ toString p.samples_per_pixel ++ "\n"
    ++ "Max ray depth: " ++ toString p.max_depth ++ "\n"

/-- What a run of `main` does, up to the call of the renderer. -/
inductive Outcome where
  /-- The `return code;` of line 44 or 56, with the text written to `std::cerr`. -/
  | returned (code : Int) (cerr : String)
  /-- An exception of `std::stoi` left `main` uncaught. -/
  | uncaught (e : stoi_error)
  /-- The call `cam.render(world)` of line 125 is reached with this camera and
  world, after `clog` was written to `std::clog`. -/
  | render (cam : camera) (world : hittable_list) (clog : String)

/-- The function `main` on the argument vector `argv` (`argc` is its length),
with the random draws taken from `R` in state `s`. -/
def main {σ : Type} (R : RandomSource σ) (s : σ) (argv : List String) : Outcome :=
  match main_args_loop (argv.headD "") argv.tail default_params with
  | .returned code cerr => .returned code cerr
  | .threw e => .uncaught e
  | .done p =>
    let world := main_world R s
    let cam := main_camera p
    .render cam world (main_clog p cam)

/-! ## Well-formed argument lists -/

/-- A flag with its value: the flag as written, the text after it, and the
integer `std::stoi` reads from that text. -/
structure FlagArg where
  flag : String
  text : String
  value : Int

/-- A well-formed pair: one of `-w`, `-s`, `-d`, `-t` followed by an integer,
that is by a text from which `std::stoi` reads `value`. -/
def FlagArg.WellFormed (q : FlagArg) : Prop :=
  q.flag ∈ ["-w", "-s", "-d", "-t"] ∧ stoi q.text = .ok q.value

/-- The arguments that a list of pairs stands for, in order. -/
def argsOf : List FlagArg → List String
  | [] => []
  | q :: ps => q.flag :: q.text :: argsOf ps

/-- The integer following the last occurrence of `flag` among the pairs, and
`dflt` when the flag does not occur. -/
def lastGiven (flag : String) (dflt : Int) (ps : List FlagArg) : Int :=
  match ps.reverse.find? (fun q => q.flag = flag) with
  | some q => q.value
  | none => dflt

/-- A small sphere as the grid loop places it: radius 0.2, centre at height
0.2 that passed the placement check of line 70, and a material of one of the
three branches of lines 73-88. -/
def grid_sphere {σ : Type} (R : RandomSource σ) (sp : sphere) : Prop :=
  sp.radius = 2/10 ∧ sp.center.y = 2/10
    ∧ (sp.center.sub ⟨4, 2/10, 0⟩).length_gt (9/10) = true
    ∧ (sp.mat = .dielectric (15/10) ∨ (∃ albedo, sp.mat = .lambertian albedo)
      ∨ ∃ albedo s, sp.mat = .metal albedo (R.random_double_range 0 (5/10) s).1)

theorem lastGiven_nil (flag : String) (dflt : Int) : lastGiven flag dflt [] = dflt := rfl

theorem lastGiven_cons (flag : String) (dflt : Int) (q : FlagArg) (ps : List FlagArg) :
    lastGiven flag dflt (q :: ps)
      = lastGiven flag (if q.flag = flag then q.value else dflt) ps := by
  unfold lastGiven
  rw [List.reverse_cons, List.find?_append]
  cases h : List.find? (fun q => decide (q.flag = flag)) ps.reverse with
  | some r => simp
  | none => by_cases hq : q.flag = flag <;> simp [List.find?, hq]

theorem lastGiven_absent (flag : String) (dflt : Int) (ps : List FlagArg)
    (h : ∀ q ∈ ps, q.flag ≠ flag) : lastGiven flag dflt ps = dflt := by
  induction ps generalizing dflt with
  | nil => rfl
  | cons q ps ih =>
    rw [lastGiven_cons, if_neg (h q (List.mem_cons_self _ _))]
    exact ih dflt (fun r hr => h r (List.mem_cons_of_mem _ hr))

theorem lastGiven_append_same (flag : String) (dflt : Int) (ps : List FlagArg) (q : FlagArg)
    (h : q.flag = flag) : lastGiven flag dflt (ps ++ [q]) = q.value := by
  simp [lastGiven, h]

theorem lastGiven_append_other (flag : String) (dflt : Int) (ps : List FlagArg) (q : FlagArg)
    (h : q.flag ≠ flag) : lastGiven flag dflt (ps ++ [q]) = lastGiven flag dflt ps := by
  simp [lastGiven, h]

/-- The scan of a run of well-formed pairs sets each parameter to the integer
after the last occurrence of its flag and goes on with the rest. -/
theorem main_args_loop_pairs (program_name : String) (ps : List FlagArg)
    (hwf : ∀ q ∈ ps, q.WellFormed) (rest : List String) (p : Params) :
    main_args_loop program_name (argsOf ps ++ rest) p
      = main_args_loop program_name rest
          { image_width := lastGiven "-w" p.image_width ps
            samples_per_pixel := lastGiven "-s" p.samples_per_pixel ps
            max_depth := lastGiven "-d" p.max_depth ps
            num_threads := lastGiven "-t" p.num_threads ps } := by
  induction ps generalizing p with
  | nil => simp [argsOf, lastGiven_nil]
  | cons q ps ih =>
    have hq := hwf q (List.mem_cons_self _ _)
    have ih' := fun p => ih (fun r hr => hwf r (List.mem_cons_of_mem _ hr)) p
    obtain ⟨hflag, hval⟩ := hq
    simp only [lastGiven_cons]
    simp only [List.mem_cons, List.mem_singleton, List.not_mem_nil, or_false] at hflag
    rcases hflag with h | h | h | h <;>
      simp [argsOf, main_args_loop, h, hval, ih']

theorem main_args_loop_help (program_name : String) (rest : List String) (p : Params) :
    main_args_loop program_name ("-h" :: rest) p = .returned 0 (usage program_name) := by
  cases rest <;> simp [main_args_loop]

theorem main_args_loop_unknown (program_name arg : String) (rest : List String) (p : Params)
    (h : arg ∉ ["-h", "-w", "-s", "-d", "-t"]) :
    main_args_loop program_name (arg :: rest) p
      = .returned 1 (unknown_option program_name arg) := by
  simp only [List.mem_cons, List.mem_singleton, List.not_mem_nil, or_false, not_or] at h
  obtain ⟨h0, h1, h2, h3, h4⟩ := h
  cases rest <;> simp [main_args_loop, h0, h1, h2, h3, h4]

theorem main_args_loop_missing (program_name arg : String) (p : Params)
    (h : arg ∈ ["-w", "-s", "-d", "-t"]) :
    main_args_loop program_name [arg] p = .returned 1 (unknown_option program_name arg) := by
  simp only [List.mem_cons, List.mem_singleton, List.not_mem_nil, or_false] at h
  rcases h with h | h | h | h <;> simp [main_args_loop, h]

/-- After a run of well-formed pairs `main` reaches the renderer, with the
camera, world and diagnostics built from the scanned parameters. -/
theorem main_pairs {σ : Type} (R : RandomSource σ) (s : σ) (program_name : String)
    (ps : List FlagArg) (hwf : ∀ q ∈ ps, q.WellFormed) :
    main R s (program_name :: argsOf ps)
      = .render
          (main_camera ⟨lastGiven "-w" 400 ps, lastGiven "-s" 100 ps,
            lastGiven "-d" 50 ps, lastGiven "-t" 0 ps⟩)
          (main_world R s)
          (main_clog ⟨lastGiven "-w" 400 ps, lastGiven "-s" 100 ps,
              lastGiven "-d" 50 ps, lastGiven "-t" 0 ps⟩
            (main_camera ⟨lastGiven "-w" 400 ps, lastGiven "-s" 100 ps,
              lastGiven "-d" 50 ps, lastGiven "-t" 0 ps⟩)) := by
  have h := main_args_loop_pairs program_name ps hwf [] default_params
  rw [List.append_nil] at h
  simp only [main, List.headD_cons, List.tail_cons, h, main_args_loop]
  rfl

/-! ## Claims on the command line -/

/-- C1: when the scan reaches an argument `-h` after a run of well-formed pairs,
`main` returns 0 at once, whatever follows the `-h`, having written to the
error stream the usage text: the line `Usage: <argv[0]> [options]`, the line
`Options:` and the five lines that describe `-w`, `-s`, `-d`, `-t` and `-h`. -/
theorem main_help_returns_zero {σ : Type} (R : RandomSource σ) (s : σ)
    (program_name : String) (ps : List FlagArg) (rest : List String)
    (hwf : ∀ q ∈ ps, q.WellFormed) :
    main R s (program_name :: (argsOf ps ++ "-h" :: rest))
      = .returned 0
          ("Usage: " ++ program_name ++ " [options]\n"
            ++ "Options:\n"
            ++ "  -w <width>      Image width\n"
            ++ "  -s <samples>    Samples per pixel\n"
            ++ "  -d <depth>      Max ray depth\n"
            ++ "  -t <threads>    Thread count (default: 0, use system default)\n"
            ++ "  -h              Show this help message\n") := by
  simp only [main, List.headD_cons, List.tail_cons,
    main_args_loop_pairs program_name ps hwf, main_args_loop_help]
  rfl

theorem main_help_returns_zero_witness :
    main zeroSource () ("rt" :: (argsOf [⟨"-w", "640", 640⟩, ⟨"-d", " -3x", -3⟩]
        ++ "-h" :: ["-q", "-w"]))
      = .returned 0
          ("Usage: " ++ "rt" ++ " [options]\n"
            ++ "Options:\n"
            ++ "  -w <width>      Image width\n"
            ++ "  -s <samples>    Samples per pixel\n"
            ++ "  -d <depth>      Max ray depth\n"
            ++ "  -t <threads>    Thread count (default: 0, use system default)\n"
            ++ "  -h              Show this help message\n") :=
  main_help_returns_zero zeroSource () "rt" [⟨"-w", "640", 640⟩, ⟨"-d", " -3x", -3⟩]
    ["-q", "-w"]
    (by
      intro q hq
      simp only [List.mem_cons, List.mem_singleton, List.not_mem_nil, or_false] at hq
      rcases hq with rfl | rfl
      · exact ⟨by decide, rfl⟩
      · exact ⟨by decide, rfl⟩)

/-- C2: when the scan reaches, after a run of well-formed pairs, an argument
that is none of `-h`, `-w`, `-s`, `-d`, `-t`, or one of `-w`, `-s`, `-d`, `-t`
standing last with no value after it, `main` returns 1, having written to the
error stream the line `Unknown option: <argument>` and then the usage text:
the line `Usage: <argv[0]> [options]`, the line `Options:` and the five lines
that describe `-w`, `-s`, `-d`, `-t` and `-h`. -/
theorem main_bad_argument_returns_one {σ : Type} (R : RandomSource σ) (s : σ)
    (program_name : String) (ps : List FlagArg) (arg : String) (rest : List String)
    (hwf : ∀ q ∈ ps, q.WellFormed)
    (hbad : arg ∉ ["-h", "-w", "-s", "-d", "-t"]
      ∨ (arg ∈ ["-w", "-s", "-d", "-t"] ∧ rest = [])) :
    main R s (program_name :: (argsOf ps ++ arg :: rest))
      = .returned 1
          ("Unknown option: " ++ arg ++ "\n"
            ++ ("Usage: " ++ program_name ++ " [options]\n"
            ++ "Options:\n"
            ++ "  -w <width>      Image width\n"
            ++ "  -s <samples>    Samples per pixel\n"
            ++ "  -d <depth>      Max ray depth\n"
            ++ "  -t <threads>    Thread count (default: 0, use system default)\n"
            ++ "  -h              Show this help message\n")) := by
  rcases hbad with h | ⟨h, rfl⟩
  · simp only [main, List.headD_cons, List.tail_cons,
      main_args_loop_pairs program_name ps hwf,
      main_args_loop_unknown program_name arg rest _ h]
    rfl
  · simp only [main, List.headD_cons, List.tail_cons,
      main_args_loop_pairs program_name ps hwf,
      main_args_loop_missing program_name arg _ h]
    rfl

theorem main_bad_argument_returns_one_witness :
    main zeroSource () ("rt" :: (argsOf [⟨"-s", "10", 10⟩] ++ "-t" :: []))
      = .returned 1
          ("Unknown option: " ++ "-t" ++ "\n"
            ++ ("Usage: " ++ "rt" ++ " [options]\n"
            ++ "Options:\n"
            ++ "  -w <width>      Image width\n"
            ++ "  -s <samples>    Samples per pixel\n"
            ++ "  -d <depth>      Max ray depth\n"
            ++ "  -t <threads>    Thread count (default: 0, use system default)\n"
            ++ "  -h              Show this help message\n")) :=
  main_bad_argument_returns_one zeroSource () "rt" [⟨"-s", "10", 10⟩] "-t" []
    (by
      intro q hq
      simp only [List.mem_singleton] at hq
      subst hq
      exact ⟨by decide, rfl⟩)
    (Or.inr ⟨by decide, rfl⟩)

/-- C3: for an argument list made only of well-formed pairs, `main` reaches the
renderer with a camera whose image width, samples per pixel, depth and thread
count are the integers after the last `-w`, `-s`, `-d` and `-t`, and 400, 100,
50 and 0 for a flag that does not occur; a further well-formed pair leaves
every field other than that of its own flag as it was. -/
theorem main_camera_fields {σ : Type} (R : RandomSource σ) (s : σ)
    (program_name : String) (ps : List FlagArg) (hwf : ∀ q ∈ ps, q.WellFormed) :
    ∃ cam world clog, main R s (program_name :: argsOf ps) = .render cam world clog
      ∧ cam.image_width = lastGiven "-w" 400 ps
      ∧ cam.samples_per_pixel = lastGiven "-s" 100 ps
      ∧ cam.max_depth = lastGiven "-d" 50 ps
      ∧ cam.num_threads = lastGiven "-t" 0 ps
      ∧ ((∀ q ∈ ps, q.flag ≠ "-w") → cam.image_width = 400)
      ∧ ((∀ q ∈ ps, q.flag ≠ "-s") → cam.samples_per_pixel = 100)
      ∧ ((∀ q ∈ ps, q.flag ≠ "-d") → cam.max_depth = 50)
      ∧ ((∀ q ∈ ps, q.flag ≠ "-t") → cam.num_threads = 0)
      ∧ ∀ q : FlagArg, q.WellFormed →
          ∃ cam1 world1 clog1,
            main R s (program_name :: argsOf (ps ++ [q])) = .render cam1 world1 clog1
            ∧ (q.flag = "-w" → cam1.image_width = q.value)
            ∧ (q.flag = "-s" → cam1.samples_per_pixel = q.value)
            ∧ (q.flag = "-d" → cam1.max_depth = q.value)
            ∧ (q.flag = "-t" → cam1.num_threads = q.value)
            ∧ (q.flag ≠ "-w" → cam1.image_width = cam.image_width)
            ∧ (q.flag ≠ "-s" → cam1.samples_per_pixel = cam.samples_per_pixel)
            ∧ (q.flag ≠ "-d" → cam1.max_depth = cam.max_depth)
            ∧ (q.flag ≠ "-t" → cam1.num_threads = cam.num_threads) := by
  refine ⟨_, _, _, main_pairs R s program_name ps hwf, rfl, rfl, rfl, rfl,
    lastGiven_absent "-w" 400 ps, lastGiven_absent "-s" 100 ps,
    lastGiven_absent "-d" 50 ps, lastGiven_absent "-t" 0 ps, ?_⟩
  intro q hq
  have hwf1 : ∀ r ∈ ps ++ [q], r.WellFormed := by
    intro r hr
    rcases List.mem_append.mp hr with h | h
    · exact hwf r h
    · rw [List.mem_singleton.mp h]; exact hq
  exact ⟨_, _, _, main_pairs R s program_name (ps ++ [q]) hwf1,
    lastGiven_append_same "-w" 400 ps q, lastGiven_append_same "-s" 100 ps q,
    lastGiven_append_same "-d" 50 ps q, lastGiven_append_same "-t" 0 ps q,
    lastGiven_append_other "-w" 400 ps q, lastGiven_append_other "-s" 100 ps q,
    lastGiven_append_other "-d" 50 ps q, lastGiven_append_other "-t" 0 ps q⟩

theorem main_camera_fields_witness :
    ∃ cam world clog,
      main zeroSource () ("rt" :: argsOf [⟨"-w", "8", 8⟩, ⟨"-t", "2", 2⟩, ⟨"-w", "16", 16⟩])
        = .render cam world clog
      ∧ cam.image_width = 16 ∧ cam.samples_per_pixel = 100 ∧ cam.max_depth = 50
      ∧ cam.num_threads = 2 := by
  obtain ⟨cam, world, clog, h, hw, hs, hd, ht, _⟩ :=
    main_camera_fields zeroSource () "rt" [⟨"-w", "8", 8⟩, ⟨"-t", "2", 2⟩, ⟨"-w", "16", 16⟩]
      (by
        intro q hq
        simp only [List.mem_cons, List.mem_singleton, List.not_mem_nil, or_false] at hq
        rcases hq with rfl | rfl | rfl
        · exact ⟨by decide, rfl⟩
        · exact ⟨by decide, rfl⟩
        · exact ⟨by decide, rfl⟩)
  refine ⟨cam, world, clog, h, ?_, ?_, ?_, ?_⟩
  · rw [hw]; decide
  · rw [hs]; decide
  · rw [hd]; decide
  · rw [ht]; decide

/-- C4: with no `-t` among the flags, the thread count `main` hands to the
camera is 0, the default of line 37. -/
theorem main_threads_default {σ : Type} (R : RandomSource σ) (s : σ)
    (program_name : String) (ps : List FlagArg) (hwf : ∀ q ∈ ps, q.WellFormed)
    (hno : ∀ q ∈ ps, q.flag ≠ "-t") :
    ∃ cam world clog, main R s (program_name :: argsOf ps) = .render cam world clog
      ∧ cam.num_threads = 0 :=
  ⟨_, _, _, main_pairs R s program_name ps hwf, lastGiven_absent "-t" 0 ps hno⟩

theorem main_threads_default_witness :
    ∃ cam world clog,
      main cycleSource 0 ("rt" :: argsOf [⟨"-w", "8", 8⟩, ⟨"-s", "1", 1⟩])
        = .render cam world clog
      ∧ cam.num_threads = 0 :=
  main_threads_default cycleSource 0 "rt" [⟨"-w", "8", 8⟩, ⟨"-s", "1", 1⟩]
    (by
      intro q hq
      simp only [List.mem_cons, List.mem_singleton, List.not_mem_nil, or_false] at hq
      rcases hq with rfl | rfl
      · exact ⟨by decide, rfl⟩
      · exact ⟨by decide, rfl⟩)
    (by
      intro q hq
      simp only [List.mem_cons, List.mem_singleton, List.not_mem_nil, or_false] at hq
      rcases hq with rfl | rfl <;> decide)

theorem to_int_of_nonneg (q : ℚ) (h : 0 ≤ q) : to_int q = ⌊q⌋ := by
  unfold to_int
  rw [Rat.floor_def, Int.tdiv_eq_ediv (Rat.num_nonneg.mpr h) (Int.natCast_nonneg _)]

theorem reported_height_pos (p : Params) (w : Int) (hw : 2 ≤ w) :
    1 ≤ reported_height (main_camera p) w := by
  have hq : (2 : ℚ) ≤ (w : ℚ) := by exact_mod_cast hw
  have h1 : (1 : ℚ) ≤ (w : ℚ) / (16 / 9) := by
    rw [le_div_iff₀ (by norm_num)]
    linarith
  unfold reported_height
  show 1 ≤ to_int ((w : ℚ) / (16 / 9))
  rw [to_int_of_nonneg _ (by linarith), Int.le_floor]
  exact_mod_cast h1

/-- C6 as it stands fails at widths 0 and 1: for `-w 0` the camera gets image
width 0 and the diagnostic line reads `Image size: 0x0`; for `-w 1` the line
reads `Image size: 1x0`. -/
theorem main_image_size_below_one :
    (main zeroSource () ["rt", "-w", "0"]
        = .render (main_camera ⟨0, 100, 50, 0⟩) (main_world zeroSource ())
            "Starting render...\nImage size: 0x0\nSamples per pixel: 100\nMax ray depth: 50\n"
      ∧ ¬ 1 ≤ (main_camera ⟨0, 100, 50, 0⟩).image_width
      ∧ ¬ 1 ≤ reported_height (main_camera ⟨0, 100, 50, 0⟩) 0)
    ∧ (main zeroSource () ["rt", "-w", "1"]
        = .render (main_camera ⟨1, 100, 50, 0⟩) (main_world zeroSource ())
            "Starting render...\nImage size: 1x0\nSamples per pixel: 100\nMax ray depth: 50\n"
      ∧ ¬ 1 ≤ reported_height (main_camera ⟨1, 100, 50, 0⟩) 1) := by
  have h0 : reported_height (main_camera ⟨0, 100, 50, 0⟩) 0 = 0 := by
    simp [reported_height, main_camera, to_int]
  have h1 : reported_height (main_camera ⟨1, 100, 50, 0⟩) 1 = 0 := by
    norm_num [reported_height, main_camera, to_int]
    rfl
  have c0 : main_clog ⟨0, 100, 50, 0⟩ (main_camera ⟨0, 100, 50, 0⟩)
      = "Starting render...\nImage size: 0x0\nSamples per pixel: 100\nMax ray depth: 50\n" := by
    simp only [main_clog, h0]
    rfl
  have c1 : main_clog ⟨1, 100, 50, 0⟩ (main_camera ⟨1, 100, 50, 0⟩)
      = "Starting render...\nImage size: 1x0\nSamples per pixel: 100\nMax ray depth: 50\n" := by
    simp only [main_clog, h1]
    rfl
  have m0 : main zeroSource () ["rt", "-w", "0"]
      = .render (main_camera ⟨0, 100, 50, 0⟩) (main_world zeroSource ())
          (main_clog ⟨0, 100, 50, 0⟩ (main_camera ⟨0, 100, 50, 0⟩)) := rfl
  have m1 : main zeroSource () ["rt", "-w", "1"]
      = .render (main_camera ⟨1, 100, 50, 0⟩) (main_world zeroSource ())
          (main_clog ⟨1, 100, 50, 0⟩ (main_camera ⟨1, 100, 50, 0⟩)) := rfl
  refine ⟨⟨?_, ?_, ?_⟩, ?_, ?_⟩
  · rw [m0, c0]
  · decide
  · rw [h0]; decide
  · rw [m1, c1]
  · rw [h1]; decide

/-- C6 amended: `main` applies no clamp.  For a width of at least 2 (the
integer after the last `-w`, or the default 400) the camera gets that width,
the line `Image size:` reports it and the height `int(width / (16/9))`, and
both are at least 1. -/
theorem main_image_size_from_two {σ : Type} (R : RandomSource σ) (s : σ)
    (program_name : String) (ps : List FlagArg) (hwf : ∀ q ∈ ps, q.WellFormed)
    (hw : 2 ≤ lastGiven "-w" 400 ps) :
    ∃ cam world clog, main R s (program_name :: argsOf ps) = .render cam world clog
      ∧ cam.image_width = lastGiven "-w" 400 ps
      ∧ clog = "Starting render...\n"
          ++ "Image size: " ++ toString (lastGiven "-w" 400 ps) ++ "x"
          ++ toString (to_int ((lastGiven "-w" 400 ps : ℚ) / (16 / 9))) ++ "\n"
          ++ "Samples per pixel: " ++ toString (lastGiven "-s" 100 ps) ++ "\n"
          ++ "Max ray depth: " ++ toString (lastGiven "-d" 50 ps) ++ "\n"
      ∧ 1 ≤ lastGiven "-w" 400 ps
      ∧ 1 ≤ to_int ((lastGiven "-w" 400 ps : ℚ) / (16 / 9)) :=
  ⟨_, _, _, main_pairs R s program_name ps hwf, rfl, rfl, by omega,
    reported_height_pos default_params _ hw⟩

theorem main_image_size_from_two_witness :
    2 ≤ lastGiven "-w" 400 [⟨"-w", "2", 2⟩]
    ∧ ∃ cam world clog, main zeroSource () ("rt" :: argsOf [⟨"-w", "2", 2⟩])
        = .render cam world clog
      ∧ cam.image_width = lastGiven "-w" 400 [⟨"-w", "2", 2⟩]
      ∧ clog = "Starting render...\n"
          ++ "Image size: " ++ toString (lastGiven "-w" 400 [⟨"-w", "2", 2⟩]) ++ "x"
          ++ toString (to_int ((lastGiven "-w" 400 [⟨"-w", "2", 2⟩] : ℚ) / (16 / 9))) ++ "\n"
          ++ "Samples per pixel: " ++ toString (lastGiven "-s" 100 [⟨"-w", "2", 2⟩]) ++ "\n"
          ++ "Max ray depth: " ++ toString (lastGiven "-d" 50 [⟨"-w", "2", 2⟩]) ++ "\n"
      ∧ 1 ≤ lastGiven "-w" 400 [⟨"-w", "2", 2⟩]
      ∧ 1 ≤ to_int ((lastGiven "-w" 400 [⟨"-w", "2", 2⟩] : ℚ) / (16 / 9)) :=
  ⟨by decide,
    main_image_size_from_two zeroSource () "rt" [⟨"-w", "2", 2⟩]
      (by
        intro q hq
        simp only [List.mem_singleton] at hq
        subst hq
        exact ⟨by decide, rfl⟩)
      (by decide)⟩

/-! ## The scene: general facts on the loops -/

theorem foldl_preserves {α β : Type} (P : β → Prop) (f : β → α → β) (l : List α) (b : β)
    (hb : P b) (hstep : ∀ b a, P b → P (f b a)) : P (l.foldl f b) := by
  induction l generalizing b with
  | nil => exact hb
  | cons a l ih => exact ih (f b a) (hstep b a hb)

theorem mem_add (world : hittable_list) (object sp : sphere) :
    sp ∈ world.add object ↔ sp ∈ world ∨ sp = object := by
  simp [hittable_list.add]

theorem length_gt_iff_sqrt (v : vec3) (r : ℚ) :
    v.length_gt r = true ↔ (r : ℝ) < Real.sqrt ((v.length_squared : ℚ) : ℝ) := by
  unfold vec3.length_gt
  rw [Bool.or_eq_true, decide_eq_true_eq, decide_eq_true_eq]
  by_cases hr : r < 0
  · have h0 : (r : ℝ) < 0 := by exact_mod_cast hr
    exact ⟨fun _ => lt_of_lt_of_le h0 (Real.sqrt_nonneg _), fun _ => Or.inl hr⟩
  · have h0 : (0 : ℝ) ≤ (r : ℝ) := by exact_mod_cast (not_lt.mp hr)
    rw [Real.lt_sqrt h0]
    constructor
    · rintro (h | h)
      · exact absurd h hr
      · have : ((r * r : ℚ) : ℝ) < ((v.length_squared : ℚ) : ℝ) := by exact_mod_cast h
        rw [pow_two]
        exact_mod_cast this
    · intro h
      right
      rw [pow_two] at h
      exact_mod_cast h

/-- Every sphere of the world after one cell is a sphere of the world before
it or the small sphere the cell adds, which passed the placement check. -/
theorem main_grid_cell_mem {σ : Type} (R : RandomSource σ) (a b : Int)
    (st : σ × hittable_list) (sp : sphere) (h : sp ∈ (main_grid_cell R a b st).2) :
    sp ∈ st.2 ∨ grid_sphere R sp := by
  unfold main_grid_cell at h
  simp only [] at h
  split_ifs at h with hc h1 h2
  · rw [mem_add] at h
    rcases h with h | h
    · exact Or.inl h
    · subst h
      exact Or.inr ⟨rfl, rfl, hc, Or.inr (Or.inl ⟨_, rfl⟩)⟩
  · rw [mem_add] at h
    rcases h with h | h
    · exact Or.inl h
    · subst h
      exact Or.inr ⟨rfl, rfl, hc, Or.inr (Or.inr ⟨_, _, rfl⟩)⟩
  · rw [mem_add] at h
    rcases h with h | h
    · exact Or.inl h
    · subst h
      exact Or.inr ⟨rfl, rfl, hc, Or.inl rfl⟩
  · exact Or.inl h

theorem main_grid_row_mem {σ : Type} (R : RandomSource σ) (a : Int)
    (st : σ × hittable_list) (sp : sphere) (h : sp ∈ (main_grid_row R a st).2) :
    sp ∈ st.2 ∨ grid_sphere R sp := by
  have key := foldl_preserves
    (fun st' : σ × hittable_list => ∀ x ∈ st'.2, x ∈ st.2 ∨ grid_sphere R x)
    (fun st' b => main_grid_cell R a b st') (loop_values (-11) 11) st
    (fun x hx => Or.inl hx)
    (fun st' b ih x hx => by
      rcases main_grid_cell_mem R a b st' x hx with h' | h'
      · exact ih x h'
      · exact Or.inr h')
  exact key sp h

/-- The description of `main_grid_cell_mem` holds of the whole grid loop. -/
theorem main_grid_mem {σ : Type} (R : RandomSource σ) (st : σ × hittable_list) (sp : sphere)
    (h : sp ∈ (main_grid R st).2) : sp ∈ st.2 ∨ grid_sphere R sp := by
  have key := foldl_preserves
    (fun st' : σ × hittable_list => ∀ x ∈ st'.2, x ∈ st.2 ∨ grid_sphere R x)
    (fun st' a => main_grid_row R a st') (loop_values (-11) 11) st
    (fun x hx => Or.inl hx)
    (fun st' a ih x hx => by
      rcases main_grid_row_mem R a st' x hx with h' | h'
      · exact ih x h'
      · exact Or.inr h')
  exact key sp h

/-- The spheres of the world `main` builds: the four fixed ones and the small
spheres of the grid loop. -/
theorem main_world_mem {σ : Type} (R : RandomSource σ) (s : σ) (sp : sphere)
    (h : sp ∈ main_world R s) :
    (sp = ground_sphere ∨ sp = glass_sphere ∨ sp = diffuse_sphere ∨ sp = metal_sphere)
      ∨ grid_sphere R sp := by
  unfold main_world at h
  simp only [mem_add] at h
  rcases h with ((h | h) | h) | h
  · rcases main_grid_mem R _ sp h with h | h
    · simp only [hittable_list.add, List.nil_append, List.mem_singleton] at h
      exact Or.inl (Or.inl h)
    · exact Or.inr h
  · exact Or.inl (Or.inr (Or.inl h))
  · exact Or.inl (Or.inr (Or.inr (Or.inl h)))
  · exact Or.inl (Or.inr (Or.inr (Or.inr h)))

theorem zeroSource_unitDraws : zeroSource.UnitDraws := by
  intro s
  simp [zeroSource]

theorem zeroSource_rangeDraws : zeroSource.RangeDraws := by
  intro lo hi s h
  exact ⟨le_refl _, h⟩

theorem cycleSource_unitDraws : cycleSource.UnitDraws := by
  intro n
  have h : (n % 10 : Nat) < 10 := Nat.mod_lt _ (by norm_num)
  have hq : (((n % 10 : Nat) : ℚ)) < 10 := by exact_mod_cast h
  have h0 : (0 : ℚ) ≤ ((n % 10 : Nat) : ℚ) := Nat.cast_nonneg _
  constructor
  · show (0 : ℚ) ≤ ((n % 10 : Nat) : ℚ) / 10
    positivity
  · show ((n % 10 : Nat) : ℚ) / 10 < 1
    rw [div_lt_one (by norm_num)]
    exact hq

theorem cycleSource_rangeDraws : cycleSource.RangeDraws := by
  intro lo hi n hlt
  have h := cycleSource_unitDraws n
  have h0 : (0 : ℚ) ≤ ((n % 10 : Nat) : ℚ) / 10 := h.1
  have h1 : ((n % 10 : Nat) : ℚ) / 10 < 1 := h.2
  have hd : 0 < hi - lo := by linarith
  constructor
  · show lo ≤ lo + (hi - lo) * (((n % 10 : Nat) : ℚ) / 10)
    nlinarith [mul_nonneg hd.le h0]
  · show lo + (hi - lo) * (((n % 10 : Nat) : ℚ) / 10) < hi
    nlinarith [mul_lt_mul_of_pos_left h1 hd]

theorem main_grid_cell_mono {σ : Type} (R : RandomSource σ) (a b : Int)
    (st : σ × hittable_list) (sp : sphere) (h : sp ∈ st.2) :
    sp ∈ (main_grid_cell R a b st).2 := by
  unfold main_grid_cell
  simp only []
  split_ifs
  · exact (mem_add _ _ _).mpr (Or.inl h)
  · exact (mem_add _ _ _).mpr (Or.inl h)
  · exact (mem_add _ _ _).mpr (Or.inl h)
  · exact h

theorem mem_foldl_of_step {α β : Type} (f : β × hittable_list → α → β × hittable_list)
    (hmono : ∀ st a sp, sp ∈ st.2 → sp ∈ (f st a).2) (l : List α) (a0 : α) (ha0 : a0 ∈ l)
    (x : sphere) (hx : ∀ st, x ∈ (f st a0).2) (st : β × hittable_list) :
    x ∈ (l.foldl f st).2 := by
  induction l generalizing st with
  | nil => simp at ha0
  | cons a l ih =>
    rw [List.foldl_cons]
    rcases List.mem_cons.mp ha0 with h | h
    · subst h
      exact foldl_preserves (fun st' : β × hittable_list => x ∈ st'.2) f l (f st a0) (hx st)
        (fun st' a' hst => hmono st' a' x hst)
    · exact ih h (f st a)

theorem main_grid_row_mono {σ : Type} (R : RandomSource σ) (a : Int)
    (st : σ × hittable_list) (sp : sphere) (h : sp ∈ st.2) :
    sp ∈ (main_grid_row R a st).2 :=
  foldl_preserves (fun st' : σ × hittable_list => sp ∈ st'.2)
    (fun st' b => main_grid_cell R a b st') (loop_values (-11) 11) st h
    (fun st' b hst => main_grid_cell_mono R a b st' sp hst)

/-- A sphere that the cell `(a, b)` adds from every state is in the world
after the grid loop. -/
theorem main_grid_mem_of_cell {σ : Type} (R : RandomSource σ) (a b : Int)
    (ha : a ∈ loop_values (-11) 11) (hb : b ∈ loop_values (-11) 11) (x : sphere)
    (hx : ∀ st, x ∈ (main_grid_cell R a b st).2) (st : σ × hittable_list) :
    x ∈ (main_grid R st).2 :=
  mem_foldl_of_step (fun st' a' => main_grid_row R a' st')
    (fun st' a' sp h => main_grid_row_mono R a' st' sp h) (loop_values (-11) 11) a ha x
    (fun st' => mem_foldl_of_step (fun st2 b' => main_grid_cell R a b' st2)
      (fun st2 b' sp h => main_grid_cell_mono R a b' st2 sp h) (loop_values (-11) 11) b hb x
      hx st')
    st

theorem main_world_mem_of_grid {σ : Type} (R : RandomSource σ) (s : σ) (x : sphere)
    (hx : x ∈ (main_grid R (s, hittable_list.add [] ground_sphere)).2) :
    x ∈ main_world R s := by
  unfold main_world
  simp only [mem_add]
  exact Or.inl (Or.inl (Or.inl hx))

theorem sqrt_lt_of_lt_sq (q r : ℚ) (hq : 0 ≤ q) (hr : 0 ≤ r) (h : q < r ^ 2) :
    Real.sqrt ((q : ℚ) : ℝ) < ((r : ℚ) : ℝ) := by
  have hr0 : 0 < r := by
    rcases hr.lt_or_eq with h0 | h0
    · exact h0
    · rw [← h0] at h
      norm_num at h
      linarith
  have hr1 : (0 : ℝ) < (r : ℝ) := by exact_mod_cast hr0
  rw [Real.sqrt_lt' hr1]
  exact_mod_cast h

/-- With every draw equal to 0 the cell `(a, 0)` places a diffuse sphere at
`(a, 0.2, 0)` whenever that point passes the placement check. -/
theorem zeroSource_places (a : Int) (ha : a ∈ loop_values (-11) 11)
    (hc : (vec3.sub ⟨(a : ℚ), 2/10, 0⟩ ⟨4, 2/10, 0⟩).length_gt (9/10) = true) :
    (⟨⟨(a : ℚ), 2/10, 0⟩, 2/10, .lambertian ⟨0, 0, 0⟩⟩ : sphere) ∈ main_world zeroSource () := by
  apply main_world_mem_of_grid
  refine main_grid_mem_of_cell zeroSource a 0 ha (by decide) _ (fun st => ?_) _
  have hc1 : (vec3.sub ⟨(a : ℚ) + 9/10 * 0, 2/10, ((0 : Int) : ℚ) + 9/10 * 0⟩
      ⟨4, 2/10, 0⟩).length_gt (9/10) = true := by
    simpa using hc
  unfold main_grid_cell
  simp only [zeroSource]
  rw [if_pos hc1, if_pos (by norm_num)]
  rw [mem_add]
  right
  simp [vec3.mul]

theorem zeroSource_places_at_origin :
    (⟨⟨((0 : Int) : ℚ), 2/10, 0⟩, 2/10, .lambertian ⟨0, 0, 0⟩⟩ : sphere)
      ∈ main_world zeroSource () :=
  zeroSource_places 0 (by decide) (by
    simp only [vec3.length_gt, vec3.sub, vec3.length_squared, Bool.or_eq_true,
      decide_eq_true_eq]
    right; norm_num)

theorem zeroSource_places_at_minus_four :
    (⟨⟨((-4 : Int) : ℚ), 2/10, 0⟩, 2/10, .lambertian ⟨0, 0, 0⟩⟩ : sphere)
      ∈ main_world zeroSource () :=
  zeroSource_places (-4) (by decide) (by
    simp only [vec3.length_gt, vec3.sub, vec3.length_squared, Bool.or_eq_true,
      decide_eq_true_eq]
    right; norm_num)

/-- With every draw equal to 0 the cell `(4, 0)` draws the centre (4, 0.2, 0)
and places no sphere. -/
theorem zeroSource_skips_cell (st : Unit × hittable_list) :
    (main_grid_cell zeroSource 4 0 st).2 = st.2 := by
  unfold main_grid_cell
  simp only [zeroSource]
  rw [if_neg]
  simp only [vec3.length_gt, vec3.sub, vec3.length_squared, Bool.or_eq_true,
    decide_eq_true_eq]
  norm_num

/-! ## Claims on the scene -/

/-- C7: every metal material in the world `main` builds was given a fuzz in
[0,1]: the large metal sphere 0, a metal sphere of the grid a draw of
`random_double(0, 0.5)`, which lies in [0, 0.5) by the assumption on the
source; the clamp of the material to [0,1] leaves each of them unchanged. -/
theorem main_metal_fuzz_in_unit_interval {σ : Type} (R : RandomSource σ)
    (hR : R.RangeDraws) (s : σ) (sp : sphere) (albedo : vec3) (fuzz : ℚ)
    (hsp : sp ∈ main_world R s) (hmat : sp.mat = .metal albedo fuzz) :
    ((sp = metal_sphere ∧ fuzz = 0) ∨ (sp.radius = 2/10 ∧ 0 ≤ fuzz ∧ fuzz < 5/10))
      ∧ 0 ≤ fuzz ∧ fuzz ≤ 1 ∧ metal_fuzz fuzz = fuzz := by
  have key : (sp = metal_sphere ∧ fuzz = 0) ∨ (sp.radius = 2/10 ∧ 0 ≤ fuzz ∧ fuzz < 5/10) := by
    rcases main_world_mem R s sp hsp with (h | h | h | h) | h
    · subst h; simp [ground_sphere] at hmat
    · subst h; simp [glass_sphere] at hmat
    · subst h; simp [diffuse_sphere] at hmat
    · subst h
      simp only [metal_sphere, material.metal.injEq] at hmat
      exact Or.inl ⟨rfl, hmat.2.symm⟩
    · obtain ⟨hr, _, _, hm⟩ := h
      rcases hm with hm | ⟨a, hm⟩ | ⟨a, t, hm⟩
      · rw [hm] at hmat; exact absurd hmat (by simp)
      · rw [hm] at hmat; exact absurd hmat (by simp)
      · rw [hm] at hmat
        simp only [material.metal.injEq] at hmat
        have hd := hR 0 (5/10) t (by norm_num)
        rw [hmat.2] at hd
        exact Or.inr ⟨hr, hd.1, hd.2⟩
  have hb : 0 ≤ fuzz ∧ fuzz ≤ 1 := by
    rcases key with ⟨_, h⟩ | ⟨_, h0, h1⟩
    · subst h; norm_num
    · exact ⟨h0, by linarith⟩
  refine ⟨key, hb.1, hb.2, ?_⟩
  unfold metal_fuzz
  rw [min_eq_left hb.2, max_eq_right hb.1]

theorem main_metal_fuzz_in_unit_interval_witness :
    cycleSource.RangeDraws ∧ metal_sphere ∈ main_world cycleSource 0
    ∧ metal_sphere.mat = .metal ⟨7/10, 6/10, 5/10⟩ 0
    ∧ ((metal_sphere = metal_sphere ∧ (0 : ℚ) = 0)
        ∨ (metal_sphere.radius = 2/10 ∧ (0 : ℚ) ≤ 0 ∧ (0 : ℚ) < 5/10))
    ∧ (0 : ℚ) ≤ 0 ∧ (0 : ℚ) ≤ 1 ∧ metal_fuzz 0 = 0 :=
  ⟨cycleSource_rangeDraws, by simp [main_world, mem_add], rfl,
    main_metal_fuzz_in_unit_interval cycleSource cycleSource_rangeDraws 0 metal_sphere
      ⟨7/10, 6/10, 5/10⟩ 0 (by simp [main_world, mem_add]) rfl⟩

/-- C9: every sphere of the world is one of the four fixed spheres or has
radius 0.2, and a sphere of radius 0.2 has its centre at height 0.2 with
`(x-4)^2 + z^2 > 0.81`, hence farther from the centre (4, 1, 0) of the large
metal sphere than 1.2, the sum of the two radii; this for every source of
random draws. -/
theorem main_small_spheres_clear_of_metal {σ : Type} (R : RandomSource σ) (s : σ)
    (sp : sphere) (hsp : sp ∈ main_world R s) :
    (sp = ground_sphere ∨ sp = glass_sphere ∨ sp = diffuse_sphere ∨ sp = metal_sphere
        ∨ sp.radius = 2/10)
      ∧ (sp.radius = 2/10 →
          sp.center.y = 2/10
          ∧ 81/100 < (sp.center.x - 4) ^ 2 + sp.center.z ^ 2
          ∧ (12/10) ^ 2 < (sp.center.sub metal_sphere.center).length_squared
          ∧ ((sp.radius + metal_sphere.radius : ℚ) : ℝ)
              < Real.sqrt (((sp.center.sub metal_sphere.center).length_squared : ℚ) : ℝ)) := by
  rcases main_world_mem R s sp hsp with (h | h | h | h) | h
  · subst h; exact ⟨Or.inl rfl, fun h => absurd h (by norm_num [ground_sphere])⟩
  · subst h; exact ⟨Or.inr (Or.inl rfl), fun h => absurd h (by norm_num [glass_sphere])⟩
  · subst h
    exact ⟨Or.inr (Or.inr (Or.inl rfl)), fun h => absurd h (by norm_num [diffuse_sphere])⟩
  · subst h
    exact ⟨Or.inr (Or.inr (Or.inr (Or.inl rfl))),
      fun h => absurd h (by norm_num [metal_sphere])⟩
  · obtain ⟨hr, hy, hc, _⟩ := h
    refine ⟨Or.inr (Or.inr (Or.inr (Or.inr hr))), fun _ => ?_⟩
    have hc' : 81/100 < (sp.center.x - 4) ^ 2 + sp.center.z ^ 2 := by
      simp only [vec3.length_gt, vec3.sub, vec3.length_squared, Bool.or_eq_true,
        decide_eq_true_eq, hy] at hc
      rcases hc with hc | hc
      · norm_num at hc
      · nlinarith [hc]
    have hd : (12/10 : ℚ) ^ 2 < (sp.center.sub metal_sphere.center).length_squared := by
      simp only [vec3.sub, vec3.length_squared, metal_sphere, hy]
      nlinarith [hc']
    refine ⟨hy, hc', hd, ?_⟩
    have h0 : (0 : ℝ) ≤ ((sp.radius + metal_sphere.radius : ℚ) : ℝ) := by
      rw [hr]; norm_num [metal_sphere]
    rw [Real.lt_sqrt h0]
    have : ((sp.radius + metal_sphere.radius : ℚ)) ^ 2
        < (sp.center.sub metal_sphere.center).length_squared := by
      rw [hr]
      have e : (2/10 + metal_sphere.radius : ℚ) = 12/10 := by norm_num [metal_sphere]
      rw [e]
      exact hd
    exact_mod_cast this

theorem main_small_spheres_clear_of_metal_witness :
    (⟨⟨((0 : Int) : ℚ), 2/10, 0⟩, 2/10, .lambertian ⟨0, 0, 0⟩⟩ : sphere)
      ∈ main_world zeroSource ()
    ∧ ((12/10 : ℚ) ^ 2
        < (vec3.sub ⟨((0 : Int) : ℚ), 2/10, 0⟩ metal_sphere.center).length_squared
      ∧ (((2/10 : ℚ) + metal_sphere.radius : ℚ) : ℝ)
          < Real.sqrt (((vec3.sub ⟨((0 : Int) : ℚ), 2/10, 0⟩
              metal_sphere.center).length_squared : ℚ) : ℝ)) :=
  ⟨zeroSource_places_at_origin,
    ((main_small_spheres_clear_of_metal zeroSource ()
      ⟨⟨((0 : Int) : ℚ), 2/10, 0⟩, 2/10, .lambertian ⟨0, 0, 0⟩⟩
      zeroSource_places_at_origin).2 rfl).2.2⟩

/-- C10: for the outcome in which every draw is 0 (a value in [0,1)), the grid
loop places a sphere of radius 0.2 at (0, 0.2, 0) and one at (-4, 0.2, 0); the
first lies at distance 0.8 from the centre of the large glass sphere, the
second at distance 0.8 from the centre of the large diffuse sphere, less than
1.2, the sum of the radii: the spheres overlap. -/
theorem main_small_sphere_overlaps_large :
    zeroSource.UnitDraws ∧ zeroSource.RangeDraws
    ∧ glass_sphere ∈ main_world zeroSource ()
    ∧ diffuse_sphere ∈ main_world zeroSource ()
    ∧ (∃ sp ∈ main_world zeroSource (), sp.radius = 2/10 ∧ sp.center = ⟨0, 2/10, 0⟩
        ∧ (sp.center.sub glass_sphere.center).length_squared
            < (sp.radius + glass_sphere.radius) ^ 2
        ∧ Real.sqrt (((sp.center.sub glass_sphere.center).length_squared : ℚ) : ℝ)
            < ((sp.radius + glass_sphere.radius : ℚ) : ℝ))
    ∧ (∃ sp ∈ main_world zeroSource (), sp.radius = 2/10 ∧ sp.center = ⟨-4, 2/10, 0⟩
        ∧ (sp.center.sub diffuse_sphere.center).length_squared
            < (sp.radius + diffuse_sphere.radius) ^ 2
        ∧ Real.sqrt (((sp.center.sub diffuse_sphere.center).length_squared : ℚ) : ℝ)
            < ((sp.radius + diffuse_sphere.radius : ℚ) : ℝ)) := by
  refine ⟨zeroSource_unitDraws, zeroSource_rangeDraws, by simp [main_world, mem_add],
    by simp [main_world, mem_add], ?_, ?_⟩
  · refine ⟨_, zeroSource_places_at_origin, rfl, ?_, ?_, ?_⟩
    · simp
    · norm_num [vec3.sub, vec3.length_squared, glass_sphere]
    · apply sqrt_lt_of_lt_sq
      · norm_num [vec3.sub, vec3.length_squared, glass_sphere]
      · norm_num [glass_sphere]
      · norm_num [vec3.sub, vec3.length_squared, glass_sphere]
  · refine ⟨_, zeroSource_places_at_minus_four, rfl, ?_, ?_, ?_⟩
    · simp
    · norm_num [vec3.sub, vec3.length_squared, diffuse_sphere]
    · apply sqrt_lt_of_lt_sq
      · norm_num [vec3.sub, vec3.length_squared, diffuse_sphere]
      · norm_num [diffuse_sphere]
      · norm_num [vec3.sub, vec3.length_squared, diffuse_sphere]

end RayTracing
